import Mathlib

/-!
Verification of the task-ordering and time-aware scheduling core of a
route-planning app. The core consists of:

* a sequencer (`calculateOptimalRoute` in the map component) that partitions
  tasks into fixed-deadline and flexible ones, sorts the fixed tasks by
  deadline, sorts the flexible tasks by distance to a single anchor point and
  concatenates the two blocks;
* two timeline builders, both called `createTimeAwareSchedule` in the source:
  a forward-accumulation variant (running clock from the start time) and a
  backward-from-deadline variant (deadline minus a 5-minute buffer);
* a lateness/tightness classification of fixed stops.

Times are modelled as integer milliseconds (JS `Date.getTime()`); an invalid
JS `Date` (NaN time value) is modelled as `none`.  Leg travel durations are
natural-number seconds (`route.legs[i].duration.value`).  Free-text fields
(`title`, `address`) are never inspected by the core and are omitted.
-/

namespace Sched

/-- A task, as produced by the upstream extraction/geocoding steps.
`durationMinutes` and `mustArriveBy` may be absent (`none` models the JS
`undefined`); `mustArriveBy` is the parsed deadline timestamp in ms. -/
structure Task where
  id : Nat
  lat : Int
  lng : Int
  durationMinutes : Option Int
  fixedTime : Bool
  mustArriveBy : Option Int
deriving DecidableEq, Repr

/-- `Math.ceil(leg.duration.value / 60)`: travel seconds to minutes,
rounding up. -/
def travelMinutesOf (durationSeconds : Nat) : Nat :=
  (durationSeconds + 59) / 60

/-- Sort key used for fixed tasks: the JS comparator is
`new Date(a.mustArriveBy) - new Date(b.mustArriveBy)`.  When a deadline is
missing the JS subtraction yields NaN, for which `Array.prototype.sort` is
implementation-defined; it is modelled by the default key 0. -/
def dateVal (t : Task) : Int :=
  t.mustArriveBy.getD 0

/-- The sequencer, lifted from `calculateOptimalRoute`: fixed tasks sorted by
deadline, then flexible tasks sorted by distance to a single reference
point (the last fixed task after sorting, or the user location when there is
no fixed task).  `dist` abstracts the external
`google.maps.geometry.spherical.computeDistanceBetween` oracle, applied to
`(lat, lng)` pairs.  `Array.prototype.sort` is stable, and for the total
preorder comparators used here every stable sort computes the same list, so
it is modelled by `List.insertionSort`. -/
def calculateOptimalRoute (dist : Int × Int → Int × Int → Int)
    (userLocation : Int × Int) (tasks : List Task) : List Task :=
  let fixedTasks :=
    (tasks.filter (fun t => t.fixedTime)).insertionSort
      (fun a b => dateVal a ≤ dateVal b)
  let flexibleTasks := tasks.filter (fun t => !t.fixedTime)
  let orderedFlexible :=
    if flexibleTasks.length > 0 then
      let referencePoint : Int × Int :=
        if fixedTasks.length > 0 then
          match fixedTasks.getLast? with
          | some t => (t.lat, t.lng)
          | none => userLocation
        else userLocation
      flexibleTasks.insertionSort
        (fun a b =>
          dist referencePoint (a.lat, a.lng) ≤ dist referencePoint (b.lat, b.lng))
    else flexibleTasks
  fixedTasks ++ orderedFlexible

/-- The single reference point of the sequencer's flexible-task sort, as the
spec describes it: the location of the last fixed task (last in deadline
order, i.e. of the sorted fixed block) when there is at least one fixed
task, otherwise the user's current location. -/
def anchorPoint (userLocation : Int × Int) (tasks : List Task) : Int × Int :=
  match ((tasks.filter (fun t => t.fixedTime)).insertionSort
      (fun a b => dateVal a ≤ dateVal b)).getLast? with
  | some t => (t.lat, t.lng)
  | none => userLocation

/-- Lateness/tightness status of a fixed stop, as rendered by
`handleRouteCalculated` (the strings LATE / TIGHT / ON TIME). -/
inductive Status where
  | LATE
  | TIGHT
  | ON_TIME
deriving DecidableEq, Repr

/-- The classification applied to a fixed stop with arrival time `arrive`
and deadline `deadline` (both in ms).  From `handleRouteCalculated`:
`isLate` is `startTime > deadline`; otherwise
`minutesBeforeDeadline = (deadline - startTime) / 60000` (exact real
division, modelled in `ℚ`) decides TIGHT (`< 5`) against ON TIME. -/
def classifyStatus (arrive deadline : Int) : Status :=
  if arrive > deadline then Status.LATE
  else if ((deadline - arrive : Int) : ℚ) / 60000 < 5 then Status.TIGHT
  else Status.ON_TIME

/-- The status attached to a schedule entry: non-fixed stops carry no
status (the source renders an empty status string for them). -/
def statusOf (isFixed : Bool) (arrive deadline : Int) : Option Status :=
  if isFixed then some (classifyStatus arrive deadline) else none

instance {ε α : Type} [DecidableEq ε] [DecidableEq α] :
    DecidableEq (Except ε α) := fun a b =>
  match a, b with
  | Except.ok x, Except.ok y =>
    if h : x = y then isTrue (by rw [h])
    else isFalse (fun hc => h (by cases hc; rfl))
  | Except.error x, Except.error y =>
    if h : x = y then isTrue (by rw [h])
    else isFalse (fun hc => h (by cases hc; rfl))
  | Except.ok _, Except.error _ => isFalse (fun hc => by cases hc)
  | Except.error _, Except.ok _ => isFalse (fun hc => by cases hc)

namespace Forward

/-- A schedule entry of the forward-accumulation
`createTimeAwareSchedule` (the variant taking
`(tasks, route, userLocation, currentTime)`).  `startTime`/`endTime` are
`none` when the corresponding JS `Date` is invalid (NaN time value), which
happens when a missing `durationMinutes` poisons the arithmetic.
`deadline` and `isLate` model fields the source only sets on fixed stops
(`none` = field absent); a fixed stop whose `mustArriveBy` is missing gets
an invalid `Date` as its deadline, likewise modelled by `none`, and its
`isLate` is `some false`, since JS comparisons against NaN are false. -/
structure Entry where
  taskId : Nat
  lat : Int
  lng : Int
  startTime : Option Int
  endTime : Option Int
  travelMinutes : Nat
  isFixed : Bool
  deadline : Option Int
  isLate : Option Bool
deriving DecidableEq, Repr

/-- `startTime > deadline` in JS: false when either date is invalid. -/
def isLateOf (startTime deadline : Option Int) : Bool :=
  match startTime, deadline with
  | some s, some d => s > d
  | _, _ => false

/-- The loop body of the forward builder, for one task: the running clock
advances by the leg's travel minutes to `startTime`;
`endTime = startTime + task.durationMinutes` with no default (a missing
duration makes `endTime` invalid). -/
def entryOf (t : Task) (legSeconds : Nat) (clock : Option Int) : Entry :=
  let travelMinutes := travelMinutesOf legSeconds
  let startTime := clock.map (fun c => c + (travelMinutes : Int) * 60 * 1000)
  let endTime :=
    match startTime, t.durationMinutes with
    | some s, some d => some (s + d * 60 * 1000)
    | _, _ => none
  { taskId := t.id
    lat := t.lat
    lng := t.lng
    startTime := startTime
    endTime := endTime
    travelMinutes := travelMinutes
    isFixed := t.fixedTime
    deadline := if t.fixedTime then t.mustArriveBy else none
    isLate := if t.fixedTime then
        some (isLateOf startTime (if t.fixedTime then t.mustArriveBy else none))
      else none }

/-- The iteration of the forward builder: tasks are processed in order, the
clock moving to each entry's `endTime`.  Reading `route.legs[i]` past the
end of the leg list throws a `TypeError` in JS, modelled as
`Except.error`. -/
def go : List Task → List Nat → Option Int → Except Unit (List Entry)
  | [], _, _ => Except.ok []
  | _ :: _, [], _ => Except.error ()
  | t :: ts, leg :: ls, clock =>
    let e := entryOf t leg clock
    match go ts ls e.endTime with
    | Except.ok rest => Except.ok (e :: rest)
    | Except.error u => Except.error u

/-- Forward-accumulation `createTimeAwareSchedule`: the running clock starts
at the passed-in current time. -/
def createTimeAwareSchedule (tasks : List Task) (legs : List Nat)
    (currentTime : Int) : Except Unit (List Entry) :=
  go tasks legs (some currentTime)

end Forward

namespace Backward

/-- A schedule entry of the backward-from-deadline
`createTimeAwareSchedule` (the variant taking `(tasks, route)`).
`departTime`/`arriveTime` are `null` (`none`) for stops without a usable
deadline.  `durationMinutes` is the reported field
`task.durationMinutes || 30`. -/
structure Entry where
  taskId : Nat
  lat : Int
  lng : Int
  departTime : Option Int
  arriveTime : Option Int
  durationMinutes : Int
  travelMinutes : Nat
  isFixed : Bool
  deadline : Option Int
deriving DecidableEq, Repr

/-- JS `task.durationMinutes || 30`: both a missing duration and a zero
duration are falsy and coerced to the default 30. -/
def jsDurationOrDefault : Option Int → Int
  | none => 30
  | some d => if d = 0 then 30 else d

/-- The loop body of the backward builder, for one task: when the task is
fixed and has a deadline (the JS guard `task.fixedTime && task.mustArriveBy`),
`arriveTime` is the deadline minus the 5-minute buffer and `departTime` is
`arriveTime` minus the leg's travel minutes; otherwise both stay `null`. -/
def entryOf (t : Task) (legSeconds : Nat) : Entry :=
  let travelMinutes := travelMinutesOf legSeconds
  let times : Option Int × Option Int :=
    match t.fixedTime, t.mustArriveBy with
    | true, some m =>
      let arriveTime := m - 5 * 60 * 1000
      (some (arriveTime - (travelMinutes : Int) * 60 * 1000), some arriveTime)
    | _, _ => (none, none)
  { taskId := t.id
    lat := t.lat
    lng := t.lng
    departTime := times.1
    arriveTime := times.2
    durationMinutes := jsDurationOrDefault t.durationMinutes
    travelMinutes := travelMinutes
    isFixed := t.fixedTime
    deadline := if t.fixedTime then t.mustArriveBy else none }

/-- The iteration of the backward builder; as in the forward builder, a leg
list shorter than the task list makes `route.legs[i]` undefined and the JS
property read throw, modelled as `Except.error`. -/
def go : List Task → List Nat → Except Unit (List Entry)
  | [], _ => Except.ok []
  | _ :: _, [] => Except.error ()
  | t :: ts, leg :: ls =>
    match go ts ls with
    | Except.ok rest => Except.ok (entryOf t leg :: rest)
    | Except.error u => Except.error u

/-- Backward-from-deadline `createTimeAwareSchedule`. -/
def createTimeAwareSchedule (tasks : List Task) (legs : List Nat) :
    Except Unit (List Entry) :=
  go tasks legs

end Backward

/-- The forward-accumulation recurrence exactly as the spec states it,
as a second definition to be compared with the source-derived builder:
from a running clock, each `(durationMinutes, legSeconds)` pair yields
`arriveTime = clock + ceil(legSeconds / 60) minutes`,
`departTime = arriveTime + durationMinutes`, and the clock advances to
`departTime`. -/
def forwardRecurrence : Int → List (Int × Nat) → List (Int × Int)
  | _, [] => []
  | clock, (dm, leg) :: rest =>
    let arriveTime := clock + (travelMinutesOf leg : Int) * 60 * 1000
    let departTime := arriveTime + dm * 60 * 1000
    (arriveTime, departTime) :: forwardRecurrence departTime rest

/-!
Concrete inputs used by the witness and counterexample theorems below.
-/

/-- A flexible task at the origin. -/
def tF : Task := ⟨0, 0, 0, some 10, false, none⟩

/-- A fixed task with the later deadline. -/
def tA : Task := ⟨1, 5, 0, some 10, true, some 200⟩

/-- A fixed task with the earlier deadline. -/
def tB : Task := ⟨2, 9, 0, some 10, true, some 100⟩

/-- A concrete stand-in for the external distance oracle (only relative
ranking matters to the sequencer): squared Euclidean distance. -/
def sqDist (p q : Int × Int) : Int :=
  (p.1 - q.1) * (p.1 - q.1) + (p.2 - q.2) * (p.2 - q.2)

/-- A task with no `durationMinutes`. -/
def tNoDur : Task := ⟨3, 0, 0, none, false, none⟩

/-- A distant flexible task. -/
def tG : Task := ⟨4, 30, 0, some 10, false, none⟩

/-- A malformed task: `fixedTime` is true but `mustArriveBy` is absent. -/
def malTask : Task := ⟨0, 9, 0, some 10, true, none⟩

/-- A well-formed flexible task, closer to the origin `(0, 0)` than
`malTask` is. -/
def flexTask : Task := ⟨1, 1, 0, some 10, false, none⟩

/-- A task whose service duration is exactly zero minutes. -/
def tZeroDur : Task := ⟨5, 2, 3, some 0, true, some 7200000⟩

instance : IsTotal Task (fun a b => dateVal a ≤ dateVal b) :=
  ⟨fun a b => Int.le_total (dateVal a) (dateVal b)⟩

instance : IsTrans Task (fun a b => dateVal a ≤ dateVal b) :=
  ⟨fun _ _ _ h1 h2 => le_trans h1 h2⟩

instance (dist : Int × Int → Int × Int → Int) (ref : Int × Int) :
    IsTotal Task
      (fun a b => dist ref (a.lat, a.lng) ≤ dist ref (b.lat, b.lng)) :=
  ⟨fun a b => Int.le_total _ _⟩

instance (dist : Int × Int → Int × Int → Int) (ref : Int × Int) :
    IsTrans Task
      (fun a b => dist ref (a.lat, a.lng) ≤ dist ref (b.lat, b.lng)) :=
  ⟨fun _ _ _ h1 h2 => le_trans h1 h2⟩

theorem minutes_lt_five_iff (x : Int) : ((x : ℚ) / 60000 < 5) ↔ x < 300000 := by
  rw [div_lt_iff₀ (by norm_num : (0 : ℚ) < 60000)]
  norm_num
  exact_mod_cast Iff.rfl

/-- The exact real slack comparison of the source,
`(deadline - startTime) / 60000 < 5`, is equivalent to the integer
comparison `deadline - arrive < 300000` on millisecond timestamps. -/
theorem classifyStatus_eq (arrive deadline : Int) :
    classifyStatus arrive deadline =
      if deadline < arrive then Status.LATE
      else if deadline - arrive < 300000 then Status.TIGHT
      else Status.ON_TIME := by
  unfold classifyStatus
  simp only [gt_iff_lt, minutes_lt_five_iff]

/-- The sequencer decomposed: the sorted fixed block followed by the
flexible tasks sorted by distance to the single anchor point. -/
theorem calculateOptimalRoute_eq (dist : Int × Int → Int × Int → Int)
    (userLocation : Int × Int) (tasks : List Task) :
    calculateOptimalRoute dist userLocation tasks =
      (tasks.filter (fun t => t.fixedTime)).insertionSort
          (fun a b => dateVal a ≤ dateVal b)
        ++ (tasks.filter (fun t => !t.fixedTime)).insertionSort
            (fun a b =>
              dist (anchorPoint userLocation tasks) (a.lat, a.lng)
                ≤ dist (anchorPoint userLocation tasks) (b.lat, b.lng)) := by
  unfold calculateOptimalRoute anchorPoint
  by_cases hfl : (tasks.filter (fun t => !t.fixedTime)).length > 0
  · simp only [if_pos hfl]
    by_cases hfx : ((tasks.filter (fun t => t.fixedTime)).insertionSort
        (fun a b => dateVal a ≤ dateVal b)).length > 0
    · simp only [if_pos hfx]
    · simp only [if_neg hfx]
      have hnil : (tasks.filter (fun t => t.fixedTime)).insertionSort
          (fun a b => dateVal a ≤ dateVal b) = [] :=
        List.length_eq_zero.mp (Nat.eq_zero_of_not_pos hfx)
      rw [hnil]
      rfl
  · simp only [if_neg hfl]
    have hnil : tasks.filter (fun t => !t.fixedTime) = [] :=
      List.length_eq_zero.mp (Nat.eq_zero_of_not_pos hfl)
    rw [hnil]
    rfl

/-- The sequencer permutes its input. -/
theorem calculateOptimalRoute_perm (dist : Int × Int → Int × Int → Int)
    (userLocation : Int × Int) (tasks : List Task) :
    List.Perm (calculateOptimalRoute dist userLocation tasks) tasks := by
  rw [calculateOptimalRoute_eq]
  exact ((List.perm_insertionSort _ _).append
    (List.perm_insertionSort _ _)).trans
      (List.filter_append_perm (fun t => t.fixedTime) tasks)

/-- The first `(tasks.filter fixedTime).length` entries of the sequencer's
output are exactly the sorted fixed block. -/
theorem calculateOptimalRoute_take (dist : Int × Int → Int × Int → Int)
    (userLocation : Int × Int) (tasks : List Task) :
    (calculateOptimalRoute dist userLocation tasks).take
        ((tasks.filter (fun t => t.fixedTime)).length)
      = (tasks.filter (fun t => t.fixedTime)).insertionSort
          (fun a b => dateVal a ≤ dateVal b) := by
  rw [calculateOptimalRoute_eq]
  exact List.take_left' (List.perm_insertionSort _ _).length_eq

/-- The remaining entries of the sequencer's output are exactly the sorted
flexible block. -/
theorem calculateOptimalRoute_drop (dist : Int × Int → Int × Int → Int)
    (userLocation : Int × Int) (tasks : List Task) :
    (calculateOptimalRoute dist userLocation tasks).drop
        ((tasks.filter (fun t => t.fixedTime)).length)
      = (tasks.filter (fun t => !t.fixedTime)).insertionSort
          (fun a b =>
            dist (anchorPoint userLocation tasks) (a.lat, a.lng)
              ≤ dist (anchorPoint userLocation tasks) (b.lat, b.lng)) := by
  rw [calculateOptimalRoute_eq]
  exact List.drop_left' (List.perm_insertionSort _ _).length_eq

/-- Claim C1: for every input task list and origin point (and under the data
model's invariant that fixed tasks carry a deadline), the sequencer's final
visit order is the fixed tasks as a contiguous leading block sorted in
non-decreasing `mustArriveBy` order, followed by all flexible tasks; no
flexible task ever precedes a fixed task, regardless of geographic layout
(the distance oracle `dist` is arbitrary). -/
theorem sequencer_fixed_block_leads (dist : Int × Int → Int × Int → Int)
    (userLocation : Int × Int) (tasks : List Task)
    (hInv : ∀ t ∈ tasks, t.fixedTime = true → t.mustArriveBy.isSome) :
    let out := calculateOptimalRoute dist userLocation tasks
    let n := (tasks.filter (fun t => t.fixedTime)).length
    List.Perm (out.take n) (tasks.filter (fun t => t.fixedTime))
      ∧ (∀ t ∈ out.take n, t.fixedTime = true)
      ∧ (out.take n).Pairwise (fun a b => ∀ x y,
          a.mustArriveBy = some x → b.mustArriveBy = some y → x ≤ y)
      ∧ List.Perm (out.drop n) (tasks.filter (fun t => !t.fixedTime))
      ∧ (∀ t ∈ out.drop n, t.fixedTime = false) := by
  intro out n
  have htake := calculateOptimalRoute_take dist userLocation tasks
  have hdrop := calculateOptimalRoute_drop dist userLocation tasks
  have hpermFix : List.Perm (out.take n) (tasks.filter (fun t => t.fixedTime)) := by
    rw [htake]; exact List.perm_insertionSort _ _
  have hpermFlex : List.Perm (out.drop n)
      (tasks.filter (fun t => !t.fixedTime)) := by
    rw [hdrop]; exact List.perm_insertionSort _ _
  refine ⟨hpermFix, ?_, ?_, hpermFlex, ?_⟩
  · intro t ht
    exact List.of_mem_filter (hpermFix.mem_iff.mp ht)
  · rw [htake]
    have hsorted : ((tasks.filter (fun t => t.fixedTime)).insertionSort
        (fun a b => dateVal a ≤ dateVal b)).Pairwise
          (fun a b => dateVal a ≤ dateVal b) :=
      List.sorted_insertionSort _ _
    refine hsorted.imp_of_mem ?_
    intro a b ha hb hle x y hx hy
    have hax : dateVal a = x := by simp [dateVal, hx]
    have hby : dateVal b = y := by simp [dateVal, hy]
    rw [hax, hby] at hle
    exact hle
  · intro t ht
    have := List.of_mem_filter (hpermFlex.mem_iff.mp ht)
    simpa using this

/-- Witness for C1 at a concrete input: a flexible task and two fixed tasks
whose deadlines are out of input order. -/
theorem sequencer_fixed_block_leads_witness :
    (∀ t ∈ [tF, tA, tB], t.fixedTime = true → t.mustArriveBy.isSome)
    ∧ (let out := calculateOptimalRoute sqDist (0, 0) [tF, tA, tB]
       let n := ([tF, tA, tB].filter (fun t => t.fixedTime)).length
       List.Perm (out.take n) ([tF, tA, tB].filter (fun t => t.fixedTime))
         ∧ (∀ t ∈ out.take n, t.fixedTime = true)
         ∧ (out.take n).Pairwise (fun a b => ∀ x y,
             a.mustArriveBy = some x → b.mustArriveBy = some y → x ≤ y)
         ∧ List.Perm (out.drop n) ([tF, tA, tB].filter (fun t => !t.fixedTime))
         ∧ (∀ t ∈ out.drop n, t.fixedTime = false)) :=
  ⟨by decide,
   sequencer_fixed_block_leads sqDist (0, 0) [tF, tA, tB] (by decide)⟩

/-- Claim C5: with at least one flexible task, the sequencer orders the
flexible tasks by a single static sort on oracle distance to one fixed
anchor point — the last fixed task's location when the fixed set is
non-empty, otherwise the origin point (`anchorPoint`) — so the trailing
block is that one sort and is non-decreasing in distance to that single
anchor (not a chained nearest-neighbor iteration, whose reference would
move from stop to stop). -/
theorem sequencer_flexible_anchor_sort (dist : Int × Int → Int × Int → Int)
    (userLocation : Int × Int) (tasks : List Task)
    (hflex : tasks.filter (fun t => !t.fixedTime) ≠ []) :
    let out := calculateOptimalRoute dist userLocation tasks
    let n := (tasks.filter (fun t => t.fixedTime)).length
    let anchor := anchorPoint userLocation tasks
    out.drop n = (tasks.filter (fun t => !t.fixedTime)).insertionSort
        (fun a b => dist anchor (a.lat, a.lng) ≤ dist anchor (b.lat, b.lng))
      ∧ (out.drop n).Pairwise
          (fun a b => dist anchor (a.lat, a.lng) ≤ dist anchor (b.lat, b.lng)) := by
  intro out n anchor
  have hdrop := calculateOptimalRoute_drop dist userLocation tasks
  exact ⟨hdrop, by rw [hdrop]; exact List.sorted_insertionSort _ _⟩

/-- Witness for C5 at a concrete input with two flexible tasks and one fixed
task: the flexible block is sorted by distance to the fixed task, not to the
origin. -/
theorem sequencer_flexible_anchor_sort_witness :
    ([tF, tA, tG].filter (fun t => !t.fixedTime) ≠ [])
    ∧ (let out := calculateOptimalRoute sqDist (0, 0) [tF, tA, tG]
       let n := ([tF, tA, tG].filter (fun t => t.fixedTime)).length
       let anchor := anchorPoint (0, 0) [tF, tA, tG]
       out.drop n = ([tF, tA, tG].filter (fun t => !t.fixedTime)).insertionSort
           (fun a b =>
             sqDist anchor (a.lat, a.lng) ≤ sqDist anchor (b.lat, b.lng))
         ∧ (out.drop n).Pairwise
             (fun a b =>
               sqDist anchor (a.lat, a.lng) ≤ sqDist anchor (b.lat, b.lng))) :=
  ⟨by decide,
   sequencer_flexible_anchor_sort sqDist (0, 0) [tF, tA, tG] (by decide)⟩

/-- Claim C6: the sequencer's output is a permutation of its input — the
same multiset of tasks and hence of task ids, dropping none and duplicating
none; the empty list yields the empty order. -/
theorem sequencer_permutation (dist : Int × Int → Int × Int → Int)
    (userLocation : Int × Int) (tasks : List Task) :
    List.Perm (calculateOptimalRoute dist userLocation tasks) tasks
      ∧ List.Perm
          ((calculateOptimalRoute dist userLocation tasks).map (fun t => t.id))
          (tasks.map (fun t => t.id))
      ∧ calculateOptimalRoute dist userLocation [] = [] :=
  ⟨calculateOptimalRoute_perm dist userLocation tasks,
   (calculateOptimalRoute_perm dist userLocation tasks).map (fun t => t.id),
   rfl⟩

/-- Counterexample to claim C7 as stated: a malformed task (fixedTime true,
no `mustArriveBy`) is NOT treated as flexible by the sequencer.  With a
flexible task at distance 1 of the origin and the malformed task at
distance 81, treating both as flexible would order the flexible task first
(shown by clearing the malformed task's flag); the actual sequencer puts
the malformed task first, in the fixed block.  (The sequencer also returns
only the ordered list — no data-quality warning accompanies the result.) -/
theorem malformed_not_flexible_cex :
    malTask.fixedTime = true ∧ malTask.mustArriveBy = none
      ∧ (calculateOptimalRoute sqDist (0, 0) [flexTask, malTask]).map
          (fun t => t.id) = [0, 1]
      ∧ (calculateOptimalRoute sqDist (0, 0)
          [flexTask, { malTask with fixedTime := false }]).map
            (fun t => t.id) = [1, 0] := by
  decide

/-- Claim C7 as amended: on an input containing a malformed task (fixedTime
true but `mustArriveBy` absent) the core does not crash — the sequencer
still returns a full ordering — but the malformed task is grouped with the
fixed tasks (the partition tests only `fixedTime`), landing in the leading
fixed block rather than being treated as flexible, and no data-quality
warning is produced. -/
theorem malformed_task_in_fixed_block (dist : Int × Int → Int × Int → Int)
    (userLocation : Int × Int) (tasks : List Task) (m : Task)
    (hm : m ∈ tasks) (hfix : m.fixedTime = true)
    (hmiss : m.mustArriveBy = none) :
    (calculateOptimalRoute dist userLocation tasks).length = tasks.length
      ∧ m ∈ (calculateOptimalRoute dist userLocation tasks).take
          ((tasks.filter (fun t => t.fixedTime)).length) := by
  refine ⟨(calculateOptimalRoute_perm dist userLocation tasks).length_eq, ?_⟩
  rw [calculateOptimalRoute_take]
  exact (List.perm_insertionSort _ _).mem_iff.mpr
    (List.mem_filter.mpr ⟨hm, hfix⟩)

/-- Witness for the amended C7 at a concrete input. -/
theorem malformed_task_in_fixed_block_witness :
    (malTask ∈ [flexTask, malTask] ∧ malTask.fixedTime = true
        ∧ malTask.mustArriveBy = none)
      ∧ ((calculateOptimalRoute sqDist (0, 0) [flexTask, malTask]).length
            = ([flexTask, malTask] : List Task).length
          ∧ malTask ∈ (calculateOptimalRoute sqDist (0, 0)
              [flexTask, malTask]).take
                (([flexTask, malTask].filter (fun t => t.fixedTime)).length)) :=
  ⟨⟨by decide, by decide, by decide⟩,
   malformed_task_in_fixed_block sqDist (0, 0) [flexTask, malTask] malTask
     (by decide) (by decide) (by decide)⟩

/-- Counterexample to claim C2 as stated: the claim classifies an arrival
with exactly 5 minutes of slack (`T - A = 300000` ms) as TIGHT
(`0 ≤ T - A ≤ 5` minutes), but the code's strict comparison
`(deadline - arrive) / 60000 < 5` classifies it ON TIME. -/
theorem status_boundary_cex :
    (0 : Int) ≤ 300000 - 0 ∧ (300000 - 0 : Int) ≤ 5 * 60000
      ∧ classifyStatus 0 300000 ≠ Status.TIGHT
      ∧ classifyStatus 0 300000 = Status.ON_TIME := by
  simp only [classifyStatus_eq]
  decide

/-- Claim C2 as amended: for a fixed stop with deadline `T` and arrival `A`
the status is exactly one of three mutually exclusive states — LATE when
`A > T`, TIGHT when `0 ≤ T - A <` 5 minutes (strictly less, per the code's
`< 5` comparison), ON-TIME when `T - A ≥` 5 minutes; in particular
`A = T + 1min` is LATE, `A = T - 3min` is TIGHT and `A = T - 10min` is
ON-TIME; non-fixed stops carry no status. -/
theorem status_classification (arrive deadline : Int) :
    (classifyStatus arrive deadline = Status.LATE ↔ deadline < arrive)
      ∧ (classifyStatus arrive deadline = Status.TIGHT ↔
          arrive ≤ deadline ∧ deadline - arrive < 300000)
      ∧ (classifyStatus arrive deadline = Status.ON_TIME ↔
          arrive ≤ deadline ∧ 300000 ≤ deadline - arrive)
      ∧ classifyStatus (deadline + 60000) deadline = Status.LATE
      ∧ classifyStatus (deadline - 180000) deadline = Status.TIGHT
      ∧ classifyStatus (deadline - 600000) deadline = Status.ON_TIME
      ∧ statusOf false arrive deadline = none
      ∧ statusOf true arrive deadline
          = some (classifyStatus arrive deadline) := by
  simp only [classifyStatus_eq, statusOf]
  refine ⟨?_, ?_, ?_, ?_, ?_, ?_, rfl, rfl⟩ <;>
    split_ifs <;> (try simp_all) <;> omega

theorem Backward.go_ok (tasks : List Task) (legs : List Nat)
    (hlen : legs.length = tasks.length) :
    Backward.go tasks legs
      = Except.ok ((tasks.zip legs).map (fun p => Backward.entryOf p.1 p.2)) := by
  induction tasks generalizing legs with
  | nil =>
    cases legs with
    | nil => rfl
    | cons l ls => simp at hlen
  | cons t ts ih =>
    cases legs with
    | nil => simp at hlen
    | cons l ls =>
      simp only [List.length_cons, Nat.succ_inj] at hlen
      simp [Backward.go, ih ls hlen, List.zip_cons_cons]

theorem backward_go_error (tasks : List Task) (legs : List Nat)
    (hshort : legs.length < tasks.length) :
    Backward.go tasks legs = Except.error () := by
  induction tasks generalizing legs with
  | nil => simp at hshort
  | cons t ts ih =>
    cases legs with
    | nil => rfl
    | cons l ls =>
      simp only [List.length_cons, Nat.succ_lt_succ_iff] at hshort
      simp [Backward.go, ih ls hshort]

theorem forward_go_error (tasks : List Task) (legs : List Nat)
    (clock : Option Int) (hshort : legs.length < tasks.length) :
    Forward.go tasks legs clock = Except.error () := by
  induction tasks generalizing legs clock with
  | nil => simp at hshort
  | cons t ts ih =>
    cases legs with
    | nil => rfl
    | cons l ls =>
      simp only [List.length_cons, Nat.succ_lt_succ_iff] at hshort
      simp [Forward.go, ih ls _ hshort]

/-- Claim C8: when the leg list is shorter than the ordered task list (the
precondition `legs.length == orderedTasks.length` is violated), both
timeline builders signal an error to the caller (the JS property read on
the undefined leg throws) instead of silently reusing a leg or skipping
stops to produce a schedule. -/
theorem leg_mismatch_fails (tasks : List Task) (legs : List Nat)
    (currentTime : Int) (hshort : legs.length < tasks.length) :
    Forward.createTimeAwareSchedule tasks legs currentTime = Except.error ()
      ∧ Backward.createTimeAwareSchedule tasks legs = Except.error () :=
  ⟨forward_go_error tasks legs (some currentTime) hshort,
   backward_go_error tasks legs hshort⟩

/-- Witness for C8: two tasks, one leg. -/
theorem leg_mismatch_fails_witness :
    ([(61 : Nat)].length < ([tF, tA] : List Task).length)
      ∧ (Forward.createTimeAwareSchedule [tF, tA] [61] 0 = Except.error ()
          ∧ Backward.createTimeAwareSchedule [tF, tA] [61] = Except.error ()) :=
  ⟨by decide, leg_mismatch_fails [tF, tA] [61] 0 (by decide)⟩

/-- Claim C4: under the backward-from-deadline policy (given the leg-count
precondition), the builder succeeds and every entry comes from the per-stop
arithmetic `Backward.entryOf`; a fixed stop with deadline `m` gets
`arriveTime = m` minus the 5-minute buffer and
`departTime = arriveTime` minus the leg's travel minutes
(`ceil(seconds/60)`); a flexible stop (no deadline) gets
`null` for both. -/
theorem backward_schedule_times (tasks : List Task) (legs : List Nat)
    (hlen : legs.length = tasks.length) :
    Backward.createTimeAwareSchedule tasks legs
        = Except.ok ((tasks.zip legs).map (fun p => Backward.entryOf p.1 p.2))
      ∧ (∀ (t : Task) (leg : Nat) (m : Int), t.fixedTime = true →
          t.mustArriveBy = some m →
            (Backward.entryOf t leg).arriveTime = some (m - 5 * 60 * 1000)
              ∧ (Backward.entryOf t leg).departTime
                  = some ((m - 5 * 60 * 1000)
                      - (travelMinutesOf leg : Int) * 60 * 1000))
      ∧ (∀ (t : Task) (leg : Nat), t.fixedTime = false →
          (Backward.entryOf t leg).arriveTime = none
            ∧ (Backward.entryOf t leg).departTime = none) := by
  refine ⟨Backward.go_ok tasks legs hlen, ?_, ?_⟩
  · intro t leg m hfix hsome
    simp [Backward.entryOf, hfix, hsome]
  · intro t leg hflex
    simp [Backward.entryOf, hflex]

/-- Witness for C4: one fixed task (deadline 10:00 am epoch-ms style value)
and one flexible task. -/
theorem backward_schedule_times_witness :
    (([60, 61] : List Nat).length = ([tA, tF] : List Task).length)
      ∧ (Backward.createTimeAwareSchedule [tA, tF] [60, 61]
            = Except.ok (([tA, tF].zip [60, 61]).map
                (fun p => Backward.entryOf p.1 p.2))
          ∧ (∀ (t : Task) (leg : Nat) (m : Int), t.fixedTime = true →
              t.mustArriveBy = some m →
                (Backward.entryOf t leg).arriveTime = some (m - 5 * 60 * 1000)
                  ∧ (Backward.entryOf t leg).departTime
                      = some ((m - 5 * 60 * 1000)
                          - (travelMinutesOf leg : Int) * 60 * 1000))
          ∧ (∀ (t : Task) (leg : Nat), t.fixedTime = false →
              (Backward.entryOf t leg).arriveTime = none
                ∧ (Backward.entryOf t leg).departTime = none)) :=
  ⟨by decide, backward_schedule_times [tA, tF] [60, 61] (by decide)⟩

/-- Claim C3: under forward accumulation, for every ordered task list with
present durations, a leg list of equal length and a start time, the
schedule satisfies the spec's recurrence (`forwardRecurrence`): the clock
starts at `currentTime`, each stop's arrival adds the leg's travel minutes
(ceiling of seconds/60 — a 61-second leg contributes 2 minutes, never 1),
departure adds the service duration, and the clock advances to the
departure; each entry records its leg's travel minutes. -/
theorem forward_schedule_recurrence (tasks : List Task) (legs : List Nat)
    (durs : List Int) (currentTime : Int)
    (hlen : legs.length = tasks.length)
    (hdur : tasks.map (fun t => t.durationMinutes) = durs.map some) :
    ∃ sch, Forward.createTimeAwareSchedule tasks legs currentTime
        = Except.ok sch
      ∧ sch.map (fun e => (e.startTime, e.endTime))
          = (forwardRecurrence currentTime (durs.zip legs)).map
              (fun p => (some p.1, some p.2))
      ∧ sch.map (fun e => e.travelMinutes) = legs.map travelMinutesOf
      ∧ travelMinutesOf 61 = 2 := by
  induction tasks generalizing legs durs currentTime with
  | nil =>
    cases legs with
    | cons l ls => simp at hlen
    | nil =>
      cases durs with
      | cons d ds => simp at hdur
      | nil => exact ⟨[], rfl, rfl, rfl, rfl⟩
  | cons t ts ih =>
    cases legs with
    | nil => simp at hlen
    | cons l ls =>
      cases durs with
      | nil => simp at hdur
      | cons d ds =>
        simp only [List.length_cons, Nat.succ_inj] at hlen
        simp only [List.map_cons, List.cons_eq_cons] at hdur
        obtain ⟨hd, hds⟩ := hdur
        obtain ⟨rest, hrest, hmap, htm, h61⟩ :=
          ih ls ds (currentTime + (travelMinutesOf l : Int) * 60 * 1000
            + d * 60 * 1000) hlen hds
        refine ⟨Forward.entryOf t l (some currentTime) :: rest, ?_, ?_, ?_, h61⟩
        · have hend : (Forward.entryOf t l (some currentTime)).endTime
              = some (currentTime + (travelMinutesOf l : Int) * 60 * 1000
                  + d * 60 * 1000) := by
            simp [Forward.entryOf, hd]
          simp only [Forward.createTimeAwareSchedule, Forward.go] at hrest ⊢
          rw [hend, hrest]
        · simp only [List.zip_cons_cons, forwardRecurrence, List.map_cons,
            List.cons_eq_cons]
          refine ⟨?_, hmap⟩
          simp [Forward.entryOf, hd]
        · simp only [List.map_cons, List.cons_eq_cons]
          exact ⟨rfl, htm⟩

/-- Witness for C3: two tasks with durations 10 and 20 minutes and legs of
61 and 120 seconds from start time 0. -/
theorem forward_schedule_recurrence_witness :
    (([61, 120] : List Nat).length = ([tA, tF] : List Task).length
        ∧ [tA, tF].map (fun t => t.durationMinutes) = [10, 10].map some)
      ∧ (∃ sch, Forward.createTimeAwareSchedule [tA, tF] [61, 120] 0
            = Except.ok sch
          ∧ sch.map (fun e => (e.startTime, e.endTime))
              = (forwardRecurrence 0 ([10, 10].zip [61, 120])).map
                  (fun p => (some p.1, some p.2))
          ∧ sch.map (fun e => e.travelMinutes) = [61, 120].map travelMinutesOf
          ∧ travelMinutesOf 61 = 2) :=
  ⟨⟨by decide, by decide⟩,
   forward_schedule_recurrence [tA, tF] [61, 120] [10, 10] 0
     (by decide) (by decide)⟩

/-- Counterexample to claim C9 as stated: the forward builder applies no
default to a missing `durationMinutes` — the entry's departure time is an
invalid date (`none`), not arrival plus 30 minutes. -/
theorem forward_no_duration_default_cex :
    tNoDur.durationMinutes = none
      ∧ (Forward.createTimeAwareSchedule [tNoDur] [60] 0).map
          (List.map (fun e => (e.startTime, e.endTime)))
        = Except.ok [(some 60000, none)]
      ∧ ((Except.ok [((some 60000 : Option Int), (none : Option Int))]
            : Except Unit (List (Option Int × Option Int)))
          ≠ Except.ok [((some 60000 : Option Int),
              some (60000 + 30 * 60 * 1000 : Int))]) := by
  decide

/-- Claim C9 as amended: a missing `durationMinutes` is treated as the
default 30 only by the backward builder, and only in the reported
`durationMinutes` field (its departure/arrival arithmetic never consumes
the duration); the forward builder applies no default — a missing duration
makes the entry's `endTime` an invalid date (`none`), which then poisons
the running clock. -/
theorem duration_default_backward_only (t : Task) (legSeconds : Nat)
    (clock : Option Int) (hmiss : t.durationMinutes = none) :
    (Backward.entryOf t legSeconds).durationMinutes = 30
      ∧ (Forward.entryOf t legSeconds clock).endTime = none := by
  constructor
  · simp [Backward.entryOf, Backward.jsDurationOrDefault, hmiss]
  · cases clock <;> simp [Forward.entryOf, hmiss]

/-- Witness for the amended C9. -/
theorem duration_default_backward_only_witness :
    tNoDur.durationMinutes = none
      ∧ ((Backward.entryOf tNoDur 60).durationMinutes = 30
          ∧ (Forward.entryOf tNoDur 60 (some 0)).endTime = none) :=
  ⟨by decide, duration_default_backward_only tNoDur 60 (some 0) (by decide)⟩

/-- Claim C10: in the backward builder, a task with `durationMinutes`
exactly 0 is reported with `durationMinutes` 30 (the JS `|| 30` coerces the
falsy 0 to the default), and its whole schedule entry is identical to the
entry of the same task with the duration missing — at the public interface
a zero-duration stop is indistinguishable from one with no duration. -/
theorem zero_duration_reported_as_default (t : Task) (legSeconds : Nat)
    (hzero : t.durationMinutes = some 0) :
    (Backward.entryOf t legSeconds).durationMinutes = 30
      ∧ Backward.entryOf t legSeconds
          = Backward.entryOf { t with durationMinutes := none } legSeconds := by
  constructor
  · simp [Backward.entryOf, Backward.jsDurationOrDefault, hzero]
  · simp [Backward.entryOf, Backward.jsDurationOrDefault, hzero]

/-- Witness for C10. -/
theorem zero_duration_reported_as_default_witness :
    tZeroDur.durationMinutes = some 0
      ∧ ((Backward.entryOf tZeroDur 60).durationMinutes = 30
          ∧ Backward.entryOf tZeroDur 60
              = Backward.entryOf { tZeroDur with durationMinutes := none } 60) :=
  ⟨by decide, zero_duration_reported_as_default tZeroDur 60 (by decide)⟩

end Sched
